import Mathlib

/-!
Verification of the tempmail-server MX receiving pipeline.

The Go sources under `mx/` (session, validation, database, config) are
shallowly embedded below.  External library calls are modelled as explicit
inputs:

* DNS TXT lookups (`net.LookupTXT`) become a function
  `String → Option (List String)` (`none` = lookup error);
* `enmime.ReadEnvelope` becomes `List Nat → Option Envelope`;
* `mail.ParseAddress` becomes an `Option String` (the parsed address);
* `mail.ParseDate` becomes `String → Option Nat` over `Nat` instants
  (with `0` playing the role of Go's zero `time.Time`);
* `dkim.Verify` becomes `Option (List Bool)` (`none` = error, otherwise
  one Bool per signature: `Err == nil`);
* database faults (driver/connection errors) become a fault oracle.

Go byte strings are modelled with `String` (operations are re-implemented
over `String.data` so that everything reduces in the kernel); `net.IP`
is a byte list.  IPv4 addresses parse to the 4-byte form; Go returns the
16-byte mapped form, but `ipEqual` / `ipTo4` / `ipNetContains` implement
Go's normalisation, so the two representations are observationally equal.
Go's Unicode case folding and space classes are modelled on ASCII, which
covers the domain-name and SPF material the server handles.
-/

namespace TempmailMX

/-! ### Go string primitives -/

/-- ASCII lower-casing of one character (model of Go `strings.ToLower`). -/
def lowerChar (c : Char) : Char :=
  if 'A' ≤ c ∧ c ≤ 'Z' then Char.ofNat (c.toNat + 32) else c

/-- Model of `strings.ToLower`. -/
def toLowerStr (s : String) : String := String.mk (s.data.map lowerChar)

/-- Split a character list at every character satisfying `p`
(Go `strings.Split` / `strings.FieldsFunc` building block). -/
def splitPred (p : Char → Bool) : List Char → List (List Char)
  | [] => [[]]
  | c :: cs =>
    let r := splitPred p cs
    if p c then [] :: r
    else
      match r with
      | [] => [[c]]
      | h :: t => (c :: h) :: t

/-- Go `strings.Split(s, sep)` for a one-character separator. -/
def splitOnChar (c : Char) (s : String) : List String :=
  (splitPred (· == c) s.data).map String.mk

/-- The white-space class of Go `unicode.IsSpace` (ASCII part plus NEL/NBSP). -/
def isGoSpace (c : Char) : Bool :=
  c == ' ' || c == '\t' || c == '\n' || c == '\x0b' || c == '\x0c' ||
    c == '\r' || c == Char.ofNat 133 || c == Char.ofNat 160

/-- Go `strings.Fields`. -/
def strFields (s : String) : List String :=
  ((splitPred isGoSpace s.data).filter (fun l => !l.isEmpty)).map String.mk

/-- Go `strings.HasPrefix`. -/
def hasPfxStr (p s : String) : Bool := p.data.isPrefixOf s.data

/-- Go `strings.TrimPrefix`. -/
def dropPfxStr (p s : String) : String :=
  if hasPfxStr p s then String.mk (s.data.drop p.data.length) else s

/-- Go `strings.Trim(s, cutset)`. -/
def trimChars (cut : List Char) (s : String) : String :=
  String.mk (((s.data.dropWhile (cut.contains ·)).reverse.dropWhile
    (cut.contains ·)).reverse)

/-! ### `net.IP`: parsing, equality, CIDR containment -/

/-- Decimal digit test. -/
def isDecDigit (c : Char) : Bool := decide ('0' ≤ c ∧ c ≤ '9')

/-- Value of a decimal digit string (callers have checked the digits). -/
def decValue (l : List Char) : Nat :=
  l.foldl (fun a c => a * 10 + (c.toNat - 48)) 0

/-- One dotted-decimal IPv4 field: 1–3 digits, ≤ 255, no leading zero
(Go ≥ 1.17 rejects leading zeros). -/
def parseV4Field (l : List Char) : Option Nat :=
  if l.isEmpty then none
  else if !(l.all isDecDigit) then none
  else if 3 < l.length then none
  else if 1 < l.length ∧ l.headD '0' = '0' then none
  else
    let n := decValue l
    if n ≤ 255 then some n else none

/-- Model of `a.b.c.d` → 4 bytes. -/
def parseIPv4 (s : String) : Option (List Nat) :=
  match (splitPred (· == '.') s.data).mapM parseV4Field with
  | some [a, b, c, d] => some [a, b, c, d]
  | _ => none

/-- Hex digit value. -/
def hexDigitVal (c : Char) : Option Nat :=
  if '0' ≤ c ∧ c ≤ '9' then some (c.toNat - 48)
  else if 'a' ≤ c ∧ c ≤ 'f' then some (c.toNat - 87)
  else if 'A' ≤ c ∧ c ≤ 'F' then some (c.toNat - 55)
  else none

/-- One IPv6 hex group: 1–4 hex digits. -/
def parseHexGroup (l : List Char) : Option Nat :=
  if l.isEmpty ∨ 4 < l.length then none
  else l.foldl (fun acc c => acc.bind fun a => (hexDigitVal c).map (a * 16 + ·))
    (some 0)

/-- Split at the first `::`, if any. -/
def findDoubleColon : List Char → Option (List Char × List Char)
  | [] => none
  | ':' :: ':' :: rest => some ([], rest)
  | c :: cs => (findDoubleColon cs).map (fun pr => (c :: pr.1, pr.2))

/-- Colon-separated groups → bytes.  A dotted-quad may appear only as the
final group (and only where `allowV4`), contributing 4 bytes. -/
def groupsToBytes (allowV4 : Bool) : List (List Char) → Option (List Nat)
  | [] => some []
  | [g] =>
    if allowV4 ∧ g.contains '.' then parseIPv4 (String.mk g)
    else (parseHexGroup g).map (fun v => [v / 256, v % 256])
  | g :: gs => do
    let v ← parseHexGroup g
    let rest ← groupsToBytes allowV4 gs
    pure ([v / 256, v % 256] ++ rest)

/-- The group list of one side of an IPv6 address. -/
def parseGroups (allowV4 : Bool) (l : List Char) : Option (List Nat) :=
  if l.isEmpty then some [] else groupsToBytes allowV4 (splitPred (· == ':') l)

/-- IPv6 textual form → 16 bytes (`::` compression, optional trailing
dotted quad), as accepted by Go's `netip.ParseAddr`. -/
def parseIPv6 (s : String) : Option (List Nat) :=
  match findDoubleColon s.data with
  | some (l, r) => do
    let lb ← parseGroups false l
    let rb ← parseGroups true r
    if lb.length + rb.length ≤ 14 then
      pure (lb ++ List.replicate (16 - lb.length - rb.length) 0 ++ rb)
    else none
  | none => do
    let b ← parseGroups true s.data
    if b.length = 16 then pure b else none

/-- Go `net.ParseIP` dispatches on the first `.` or `:`. -/
def ipKind : List Char → Option Bool
  | [] => none
  | '.' :: _ => some true
  | ':' :: _ => some false
  | _ :: cs => ipKind cs

/-- Go `net.ParseIP` (`none` = Go's `nil`). -/
def parseIP (s : String) : Option (List Nat) :=
  match ipKind s.data with
  | some true => parseIPv4 s
  | some false => parseIPv6 s
  | none => none

/-- The IPv4-in-IPv6 prefix (`net.v4InV6Prefix`). -/
def v4InV6 : List Nat := [0, 0, 0, 0, 0, 0, 0, 0, 0, 0, 255, 255]

/-- Model of `IP.To4`. -/
def ipTo4 (ip : List Nat) : Option (List Nat) :=
  if ip.length = 4 then some ip
  else if ip.length = 16 ∧ ip.take 12 = v4InV6 then some (ip.drop 12)
  else none

/-- Model of `IP.Equal`: byte equality up to the 4-byte/16-byte normalisation. -/
def ipEqual (x y : List Nat) : Bool :=
  if x.length = y.length then x == y
  else if x.length = 4 ∧ y.length = 16 then
    (y.take 12 == v4InV6) && (x == y.drop 12)
  else if x.length = 16 ∧ y.length = 4 then
    (x.take 12 == v4InV6) && (y == x.drop 12)
  else false

/-- A byte with `k` leading one bits. -/
def byteOnes (k : Nat) : Nat := 255 - (2 ^ (8 - k) - 1)

/-- Model of `net.CIDRMask n bits` as bytes. -/
def cidrMask (n bits : Nat) : List Nat :=
  (List.range (bits / 8)).map (fun i => byteOnes (min 8 (n - 8 * i)))

/-- Split at the first occurrence of character `c`. -/
def splitFirstChar (c : Char) : List Char → Option (List Char × List Char)
  | [] => none
  | x :: xs =>
    if x = c then some ([], xs)
    else (splitFirstChar c xs).map (fun pr => (x :: pr.1, pr.2))

/-- Model of `net.ParseCIDR`: returns (masked network bytes, mask bytes). -/
def parseCIDR (s : String) : Option (List Nat × List Nat) :=
  match splitFirstChar '/' s.data with
  | none => none
  | some (addrCs, maskCs) => do
    let ip ← parseIP (String.mk addrCs)
    if maskCs.isEmpty ∨ !(maskCs.all isDecDigit) then none
    else
      let n := decValue maskCs
      let bits := 8 * ip.length
      if n ≤ bits then
        let m := cidrMask n bits
        pure (List.zipWith (fun a b => a &&& b) ip m, m)
      else none

/-- Model of `net.networkNumberAndMask` (`none` = Go's `nil, nil`). -/
def networkNumberAndMask (nw : List Nat × List Nat) :
    Option (List Nat × List Nat) :=
  let ip := match ipTo4 nw.1 with | some i4 => i4 | none => nw.1
  if ip.length = 4 ∧ nw.2.length = 4 then some (ip, nw.2)
  else if ip.length = 4 ∧ nw.2.length = 16 then some (ip, nw.2.drop 12)
  else if ip.length = 16 ∧ nw.2.length = 16 then some (ip, nw.2)
  else none

/-- Model of `IPNet.Contains`. -/
def ipNetContains (nw : List Nat × List Nat) (ip0 : List Nat) : Bool :=
  match networkNumberAndMask nw with
  | none => false
  | some (nn, m) =>
    let ip := match ipTo4 ip0 with | some x => x | none => ip0
    if ip.length ≠ nn.length then false
    else (List.zip (List.zip nn m) ip).all
      (fun t => (t.1.1 &&& t.1.2) == (t.2 &&& t.1.2))

/-! ### `mx/validation.go`: DKIM / SPF / DMARC -/

/-- Model of `extractDomain` (validation.go): strip angle brackets, split at `@`,
lower-case the domain; `""` unless exactly one `@`. -/
def extractDomain (email : String) : String :=
  let e := trimChars ['<', '>'] email
  match splitOnChar '@' e with
  | [_, d] => toLowerStr d
  | _ => ""

/-- Model of `matchIP` (validation.go): exact `net.IP.Equal` match, or CIDR
containment when the range contains a `/`. -/
def matchIP (ip : List Nat) (ipRange : String) : Bool :=
  if ipRange.data.contains '/' then
    match parseCIDR ipRange with
    | some nw => ipNetContains nw ip
    | none => false
  else
    match parseIP ipRange with
    | some testIP => ipEqual testIP ip
    | none => false

/-- The left-to-right mechanism scan inside `evaluateBasicSPF`. -/
def spfScan (ip : List Nat) : List String → String
  | [] => "neutral"
  | mech :: rest =>
    if hasPfxStr "ip4:" mech || hasPfxStr "ip6:" mech then
      let ipRange := dropPfxStr "ip6:" (dropPfxStr "ip4:" mech)
      if matchIP ip ipRange then "pass" else spfScan ip rest
    else if mech = "a" ∨ mech = "+a" then "neutral"
    else if mech = "-all" then "fail"
    else if mech = "~all" then "softfail"
    else if mech = "?all" then "neutral"
    else spfScan ip rest

/-- Model of `evaluateBasicSPF` (validation.go): split the record into fields,
skip the `v=spf1` field, scan the mechanisms.  The `domain` argument is
unused, as in the source. -/
def evaluateBasicSPF (ip : List Nat) (spfRecord domain : String) : String :=
  let mechanisms := strFields spfRecord
  spfScan ip (mechanisms.drop 1)

/-- Model of `lookupSPFRecord`: TXT lookup at the domain, first record starting
with `v=spf1`; `none` on DNS error or when no such record exists. -/
def lookupSPFRecord (dns : String → Option (List String)) (domain : String) :
    Option String :=
  (dns domain).bind (fun rs => rs.find? (fun r => hasPfxStr "v=spf1" r))

/-- Model of `Validator.validateSPF` (validation.go).  `heloName` is unused, as in
the source. -/
def validateSPF (dns : String → Option (List String))
    (clientIP heloName fromAddr : String) : String :=
  if extractDomain fromAddr = "" then "none"
  else
    match parseIP clientIP with
    | none => "none"
    | some ip =>
      match lookupSPFRecord dns (extractDomain fromAddr) with
      | none => "none"
      | some spfRecord => evaluateBasicSPF ip spfRecord (extractDomain fromAddr)

/-- Model of `lookupDMARCRecord`: TXT lookup at `_dmarc.<domain>`, first record
starting with `v=DMARC1`. -/
def lookupDMARCRecord (dns : String → Option (List String))
    (domain : String) : Option String :=
  (dns ("_dmarc." ++ domain)).bind
    (fun rs => rs.find? (fun r => hasPfxStr "v=DMARC1" r))

/-- Model of `Validator.validateDMARC` (validation.go). -/
def validateDMARC (dns : String → Option (List String))
    (domain spfResult : String) (dkimValid : Option Bool) : String :=
  if domain = "" then "none"
  else
    match lookupDMARCRecord dns domain with
    | none => "none"
    | some _ =>
      if spfResult = "pass" ∨ dkimValid = some true then "pass" else "fail"

/-- Model of `Validator.validateDKIM` (validation.go).  Input: `none` when
`dkim.Verify` errors, otherwise one Bool per found signature
(`verification.Err == nil`).  True iff at least one signature verifies. -/
def validateDKIM (verifications : Option (List Bool)) : Bool :=
  match verifications with
  | none => false
  | some vs => vs.any id

/-- Model of `ValidationResult` (validation.go). -/
structure ValidationResult where
  dkimValid : Option Bool
  spfResult : String
  dmarcResult : String
deriving DecidableEq

/-- The `validation` section of `Config` (config.go). -/
structure ValidationConfig where
  checkDKIM : Bool
  checkSPF : Bool
  checkDMARC : Bool
  storeResults : Bool
deriving DecidableEq

/-- Model of `Validator.ValidateEmail` (validation.go): runs the configured checks,
leaving the defaults (`nil` DKIM, `"none"` SPF, `"none"` DMARC) for
disabled ones.  DMARC consumes the SPF and DKIM results. -/
def ValidateEmail (vc : ValidationConfig) (dkimVerifications : Option (List Bool))
    (dns : String → Option (List String)) (fromAddr clientIP heloName : String) :
    ValidationResult :=
  let r0 : ValidationResult := ⟨none, "none", "none"⟩
  let r1 := if vc.checkDKIM then
    { r0 with dkimValid := some (validateDKIM dkimVerifications) } else r0
  let r2 := if vc.checkSPF then
    { r1 with spfResult := validateSPF dns clientIP heloName fromAddr } else r1
  let r3 := if vc.checkDMARC then
    { r2 with dmarcResult :=
        validateDMARC dns (extractDomain fromAddr) r2.spfResult r2.dkimValid }
    else r2
  r3

/-! ### Config (config.go) -/

/-- The configuration fields the receiving pipeline reads. -/
structure Config where
  domains : List String
  maxMsgSizeMB : Int
  validation : ValidationConfig

/-- Model of `Config.GetMaxMessageSize`: megabytes → bytes. -/
def getMaxMessageSize (c : Config) : Int := c.maxMsgSizeMB * 1024 * 1024

/-- Model of `Config.GetDomainMap` builds `map[string]bool` keyed by the configured
domain strings exactly as written (no case folding); membership in that
map is exact string equality. -/
def getDomainMap (c : Config) : List String := c.domains

/-- Lookup in the domain map (`s.domains[domain]`). -/
def domainAllowed (m : List String) (domain : String) : Bool :=
  m.contains domain

/-! ### Data model rows (schema.sql / database.go) -/

/-- Model of `EmailData` (database.go). -/
structure EmailData where
  messageID : String
  subject : String
  fromAddr : String
  toAddr : String
  rawHeaders : String
  bodyPlain : String
  bodyHTML : String
  rawMessage : List Nat
  sizeBytes : Int
  dkimValid : Option Bool
  spfResult : String
  dmarcResult : String
  hasAttachments : Bool
  receivedAt : Nat
deriving DecidableEq

/-- Model of `AttachmentData` (database.go). -/
structure AttachmentData where
  filename : String
  contentType : String
  sizeBytes : Int
  data : List Nat
deriving DecidableEq

/-- A row of `addresses`. -/
structure AddressRow where
  id : Nat
  email : String
deriving DecidableEq

/-- A row of `emails` (the stored `EmailData` plus its generated id). -/
structure EmailRow where
  id : Nat
  data : EmailData
deriving DecidableEq

/-- A row of `email_recipients`. -/
structure LinkRow where
  emailId : Nat
  addressId : Nat
deriving DecidableEq

/-- A row of `attachments`. -/
structure AttRow where
  emailId : Nat
  data : AttachmentData
deriving DecidableEq

/-- The relational store.  `nextId` models id generation for
`INSERT ... RETURNING id`.  The schema's `UNIQUE (email_id, address_id)`
constraint is assumed where stated. -/
structure MailStore where
  addresses : List AddressRow
  emails : List EmailRow
  links : List LinkRow
  attachments : List AttRow
  nextId : Nat
deriving DecidableEq

/-- Model of `DB.AddressExists` (database.go): case-insensitive existence check on
the lowercased form. -/
def AddressExists (st : MailStore) (email : String) : Bool :=
  st.addresses.any (fun a => a.email == toLowerStr email)

instance {ε α : Type} [DecidableEq ε] [DecidableEq α] :
    DecidableEq (Except ε α) := fun x y =>
  match x, y with
  | .ok a, .ok b =>
    if h : a = b then isTrue (by rw [h])
    else isFalse (by intro hh; cases hh; exact h rfl)
  | .error a, .error b =>
    if h : a = b then isTrue (by rw [h])
    else isFalse (by intro hh; cases hh; exact h rfl)
  | .ok _, .error _ => isFalse (by intro hh; cases hh)
  | .error _, .ok _ => isFalse (by intro hh; cases hh)

/-! ### SMTP session (session source file): RCPT -/

/-- Model of `Session.Rcpt`: parse the address (`mail.ParseAddress` is injected as
`parsed`, `none` = parse error), split at `@`, lower-case the domain,
require it in the domain map, and append the lowercased address.  This is
the catch-all variant shipped in the source: any local part on an allowed
domain is accepted, with no `AddressExists` call. -/
def Rcpt (domains : List String) (parsed : Option String)
    (toList : List String) : Except String (List String) :=
  match parsed with
  | none => .error "invalid recipient address"
  | some address =>
    match splitOnChar '@' address with
    | [_, d] =>
      let domain := toLowerStr d
      if !(domainAllowed domains domain) then
        .error ("relay access denied for domain " ++ domain)
      else
        .ok (toList ++ [toLowerStr address])
    | _ => .error "invalid email format"

/-! ### MIME extraction (session source file) -/

/-- The result of `enmime.ReadEnvelope` as consumed by the session:
the header map (modelled as an association list in Go's iteration order),
the concatenated text and HTML bodies, and the attachment / inline part
lists. -/
structure Envelope where
  headers : List (String × List String)
  text : String
  html : String
  attachments : List AttachmentData
  inlines : List AttachmentData

/-- Model of `envelope.GetHeader`: first value of the header, `""` if absent. -/
def getHeader (env : Envelope) (key : String) : String :=
  match env.headers.find? (fun kv => kv.1 == key) with
  | some (_, v :: _) => v
  | _ => ""

/-- The `rawHeaders` buffer: one `"Key: Value\n"` line per header value. -/
def flattenHeaders (hs : List (String × List String)) : String :=
  hs.foldl (fun acc kv =>
    kv.2.foldl (fun a v => a ++ kv.1 ++ ": " ++ v ++ "\n") acc) ""

/-- The sent-date computation inside `extractEmailData`: parse the `Date`
header when non-empty (`mail.ParseDate` injected as `parseDate`); when the
result is the zero time (absent or unparseable header), substitute the
receive instant `now`. -/
def computeSentDate (parseDate : String → Option Nat) (dateStr : String)
    (now : Nat) : Nat :=
  let dateSent := if dateStr ≠ "" then (parseDate dateStr).getD 0 else 0
  if dateSent = 0 then now else dateSent

/-- Model of `Session.extractEmailData`.  Note that the source computes `dateSent`
and then never uses it: the returned record has no sent-date field and its
`ReceivedAt` is `time.Now()`.  Fields not listed in the Go struct literal
get Go zero values (`""`, `nil`, `false`). -/
def extractEmailData (fromAddr : String) (parseDate : String → Option Nat)
    (now : Nat) (env : Envelope) (rawMessage : List Nat) (size : Int) :
    EmailData :=
  let messageID := getHeader env "Message-ID"
  let subject := getHeader env "Subject"
  let dateStr := getHeader env "Date"
  let dateSent := computeSentDate parseDate dateStr now
  let rawHeaders := flattenHeaders env.headers
  let bodyPlain := env.text
  let bodyHTML := env.html
  let bodyPlain :=
    if bodyPlain = "" ∧ bodyHTML ≠ "" then
      "[HTML email - plain text not provided]"
    else bodyPlain
  let _ := dateSent
  { messageID := messageID
    subject := subject
    fromAddr := fromAddr
    toAddr := ""
    rawHeaders := rawHeaders
    bodyPlain := bodyPlain
    bodyHTML := bodyHTML
    rawMessage := rawMessage
    sizeBytes := size
    dkimValid := none
    spfResult := ""
    dmarcResult := ""
    hasAttachments := false
    receivedAt := now }

/-- Model of `Session.extractAttachments`: regular attachments followed by inline
parts, stored identically. -/
def extractAttachments (env : Envelope) : List AttachmentData :=
  env.attachments ++ env.inlines

/-! ### `Session.Data` -/

/-- The validator's external inputs for one message, available when the
session has a validator (some check enabled). -/
structure ValidationCtx where
  vc : ValidationConfig
  dkimVerifications : Option (List Bool)
  dns : String → Option (List String)
  clientIP : String
  heloName : String

/-- The external world of one DATA command: socket read error flag,
the MIME parser, the date parser, the receive instant, and the optional
validator. -/
structure DataCtx where
  readErr : Bool
  readEnvelope : List Nat → Option Envelope
  parseDate : String → Option Nat
  now : Nat
  validation : Option ValidationCtx

/-- Model of `io.LimitReader(r, maxSize)` followed by `ReadFrom`: at most
`maxSize` bytes are consumed (none for a non-positive limit). -/
def sizeLimitedRead (maxSize : Int) (msg : List Nat) : List Nat :=
  msg.take maxSize.toNat

/-- Model of `Session.Data` up to (and excluding) the per-recipient store loop:
bounded read, size check, MIME parse, extraction, validation-field
attachment, attachment extraction and the `HasAttachments` flag.  Returns
the `EmailData` handed to `StoreEmail` (its `ToAddr` is set per recipient
in the loop) together with the attachment list. -/
def sessionData (cfg : Config) (ctx : DataCtx) (fromAddr : String)
    (msg : List Nat) : Except String (EmailData × List AttachmentData) :=
  let raw := sizeLimitedRead (getMaxMessageSize cfg) msg
  let size : Int := raw.length
  if ctx.readErr then .error "error reading message"
  else if getMaxMessageSize cfg ≤ size then
    .error ("message too large (max " ++ toString cfg.maxMsgSizeMB ++ " MB)")
  else
    match ctx.readEnvelope raw with
    | none => .error "error processing message"
    | some env =>
      let emailData := extractEmailData fromAddr ctx.parseDate ctx.now env raw size
      let emailData :=
        match ctx.validation with
        | some v =>
          let vres := ValidateEmail v.vc v.dkimVerifications v.dns fromAddr
            v.clientIP v.heloName
          { emailData with
              dkimValid := vres.dkimValid
              spfResult := vres.spfResult
              dmarcResult := vres.dmarcResult }
        | none => emailData
      let attachments := extractAttachments env
      let emailData := { emailData with
        hasAttachments := decide (0 < attachments.length) }
      .ok (emailData, attachments)

/-! ### `DB.StoreEmail` (database.go, explicit-mailbox variant) -/

/-- Driver-level fault oracle for one `StoreEmail` call: each field is the
error (if any) the corresponding statement reports for external reasons.
`none` = the statement succeeds. -/
structure DBFault where
  beginTx : Option String
  insertEmail : Option String
  queryAddress : Option String
  insertLink : Option String
  insertAttachment : Nat → Option String
  commit : Option String

/-- Model of `DB.getAddress` run inside the transaction: lower-case the address,
look it up; `sql.ErrNoRows` becomes the does-not-exist error, any other
query error is wrapped. -/
def getAddressTx (st : MailStore) (fault : Option String) (email : String) :
    Except String Nat :=
  let normalizedEmail := toLowerStr email
  match fault with
  | some e => .error ("failed to query address: " ++ e)
  | none =>
    match st.addresses.find? (fun a => a.email == normalizedEmail) with
    | none => .error ("address does not exist: " ++ normalizedEmail)
    | some a => .ok a.id

/-- The attachment insert loop: first fault (by position) aborts it. -/
def attachLoop (f : Nat → Option String) : List AttachmentData → Nat →
    Option String
  | [], _ => none
  | _ :: rest, i =>
    match f i with
    | some e => some e
    | none => attachLoop f rest (i + 1)

/-- Model of `DB.StoreEmail`: one transaction inserting the email row, resolving
the recipient's address id (`getAddress`, no auto-create), inserting the
recipient link and every attachment, then committing.  Every error path
returns before commit (`defer tx.Rollback()`), so the store is returned
unchanged; each error is wrapped by `fmt.Errorf("...: %w", err)`. -/
def StoreEmail (st : MailStore) (f : DBFault) (email : EmailData)
    (attachments : List AttachmentData) : MailStore × Option String :=
  match f.beginTx with
  | some e => (st, some ("failed to begin transaction: " ++ e))
  | none =>
  match f.insertEmail with
  | some e => (st, some ("failed to insert email: " ++ e))
  | none =>
  let emailID := st.nextId
  match getAddressTx st f.queryAddress email.toAddr with
  | .error e => (st, some ("failed to get address: " ++ e))
  | .ok addressID =>
  match f.insertLink with
  | some e => (st, some ("failed to link email to address: " ++ e))
  | none =>
  match attachLoop f.insertAttachment attachments 0 with
  | some e => (st, some ("failed to insert attachment: " ++ e))
  | none =>
  match f.commit with
  | some e => (st, some ("failed to commit transaction: " ++ e))
  | none =>
    ({ st with
        emails := st.emails ++ [⟨emailID, email⟩]
        links := st.links ++ [⟨emailID, addressID⟩]
        attachments := st.attachments ++ attachments.map (fun a => ⟨emailID, a⟩)
        nextId := st.nextId + 1 }, none)

/-! ### `DB.EnforceEmailLimit` (database.go) -/

/-- The emails currently linked to one mailbox (the
`emails JOIN email_recipients WHERE address_id = $1` row set; the schema's
`UNIQUE (email_id, address_id)` makes it one row per email). -/
def mailboxEmails (st : MailStore) (addressID : Nat) : List EmailRow :=
  st.emails.filter (fun e =>
    st.links.any (fun l => l.emailId == e.id && l.addressId == addressID))

/-- Model of `ORDER BY e.received_at DESC`: newest (largest `received_at`) first. -/
def newerEq (a b : EmailRow) : Prop := b.data.receivedAt ≤ a.data.receivedAt

instance : DecidableRel newerEq := fun a b =>
  inferInstanceAs (Decidable (b.data.receivedAt ≤ a.data.receivedAt))

instance : IsTotal EmailRow newerEq :=
  ⟨fun a b => by unfold newerEq; exact Nat.le_total _ _⟩

instance : IsTrans EmailRow newerEq :=
  ⟨fun _ _ _ h h' => by unfold newerEq at h h' ⊢; exact Nat.le_trans h' h⟩

/-- The ids selected by `EnforceEmailLimit`'s subquery: everything after
the first 100 of the mailbox's emails in `received_at DESC` order. -/
def doomedIds (st : MailStore) (addressID : Nat) : List Nat :=
  ((List.insertionSort newerEq (mailboxEmails st addressID)).drop 100).map
    (fun e => e.id)

/-- Model of `DB.EnforceEmailLimit`: delete every email of the mailbox beyond the
first `100` in `received_at DESC` order (the cap is hard-coded to 100 in
the source).  Deleting an `emails` row cascades into `email_recipients`
and `attachments` (schema `ON DELETE CASCADE`). -/
def EnforceEmailLimit (st : MailStore) (addressID : Nat) : MailStore :=
  let maxEmails := 100
  let ordered := List.insertionSort newerEq (mailboxEmails st addressID)
  let doomed := (ordered.drop maxEmails).map (fun e => e.id)
  { st with
      emails := st.emails.filter (fun e => !(doomed.contains e.id))
      links := st.links.filter (fun l => !(doomed.contains l.emailId))
      attachments := st.attachments.filter (fun a => !(doomed.contains a.emailId)) }

/-! ### Enumerated result sets (schema comments / EmailData comments) -/

/-- The documented SPF result values. -/
def spfResultSet : List String :=
  ["pass", "fail", "softfail", "neutral", "none", "temperror", "permerror"]

/-- The documented DMARC result values. -/
def dmarcResultSet : List String := ["pass", "fail", "none"]

/-! ## Helper lemmas -/

theorem spfScan_cases (ip : List Nat) (l : List String) :
    spfScan ip l = "pass" ∨ spfScan ip l = "fail" ∨
    spfScan ip l = "softfail" ∨ spfScan ip l = "neutral" := by
  induction l with
  | nil => simp [spfScan]
  | cons mech rest ih =>
    rw [spfScan]
    by_cases h1 : (hasPfxStr "ip4:" mech || hasPfxStr "ip6:" mech) = true
    · rw [if_pos h1]
      by_cases h2 : matchIP ip (dropPfxStr "ip6:" (dropPfxStr "ip4:" mech)) = true
      · rw [if_pos h2]; left; rfl
      · rw [if_neg h2]; exact ih
    · rw [if_neg h1]
      by_cases h3 : mech = "a" ∨ mech = "+a"
      · rw [if_pos h3]; right; right; right; rfl
      · rw [if_neg h3]
        by_cases h4 : mech = "-all"
        · rw [if_pos h4]; right; left; rfl
        · rw [if_neg h4]
          by_cases h5 : mech = "~all"
          · rw [if_pos h5]; right; right; left; rfl
          · rw [if_neg h5]
            by_cases h6 : mech = "?all"
            · rw [if_pos h6]; right; right; right; rfl
            · rw [if_neg h6]; exact ih

theorem evaluateBasicSPF_cases (ip : List Nat) (r d : String) :
    evaluateBasicSPF ip r d = "pass" ∨ evaluateBasicSPF ip r d = "fail" ∨
    evaluateBasicSPF ip r d = "softfail" ∨
    evaluateBasicSPF ip r d = "neutral" := by
  unfold evaluateBasicSPF
  exact spfScan_cases ip _

theorem validateSPF_mem (dns : String → Option (List String))
    (clientIP heloName fromAddr : String) :
    validateSPF dns clientIP heloName fromAddr ∈ spfResultSet := by
  unfold validateSPF
  split_ifs with h
  · decide
  · cases hip : parseIP clientIP with
    | none => show "none" ∈ spfResultSet; decide
    | some ip =>
      cases hrec : lookupSPFRecord dns (extractDomain fromAddr) with
      | none => show "none" ∈ spfResultSet; decide
      | some r =>
        show evaluateBasicSPF ip r (extractDomain fromAddr) ∈ spfResultSet
        rcases evaluateBasicSPF_cases ip r (extractDomain fromAddr) with
          h1 | h1 | h1 | h1 <;> rw [h1] <;> decide

theorem validateDMARC_of_record (dns : String → Option (List String))
    (domain spfResult : String) (dkimValid : Option Bool)
    (hne : domain ≠ "") (r : String)
    (hr : lookupDMARCRecord dns domain = some r) :
    validateDMARC dns domain spfResult dkimValid =
      if spfResult = "pass" ∨ dkimValid = some true then "pass"
      else "fail" := by
  unfold validateDMARC
  rw [if_neg hne, hr]

theorem validateDMARC_mem (dns : String → Option (List String))
    (domain spfResult : String) (dkimValid : Option Bool) :
    validateDMARC dns domain spfResult dkimValid ∈ dmarcResultSet := by
  by_cases hne : domain = ""
  · unfold validateDMARC
    rw [if_pos hne]; decide
  · cases hrec : lookupDMARCRecord dns domain with
    | none =>
      unfold validateDMARC
      rw [if_neg hne, hrec]
      show "none" ∈ dmarcResultSet; decide
    | some r =>
      rw [validateDMARC_of_record dns domain spfResult dkimValid hne r hrec]
      split_ifs <;> decide

theorem ValidateEmail_spf_mem (vc : ValidationConfig)
    (dk : Option (List Bool)) (dns : String → Option (List String))
    (fromAddr clientIP heloName : String) :
    (ValidateEmail vc dk dns fromAddr clientIP heloName).spfResult ∈
      spfResultSet := by
  unfold ValidateEmail
  cases hd : vc.checkDMARC <;> cases hs : vc.checkSPF <;>
    cases hk : vc.checkDKIM <;> simp [hd, hs, hk] <;>
    first
      | exact validateSPF_mem dns clientIP heloName fromAddr
      | decide

theorem ValidateEmail_dmarc_mem (vc : ValidationConfig)
    (dk : Option (List Bool)) (dns : String → Option (List String))
    (fromAddr clientIP heloName : String) :
    (ValidateEmail vc dk dns fromAddr clientIP heloName).dmarcResult ∈
      dmarcResultSet := by
  unfold ValidateEmail
  cases hd : vc.checkDMARC <;> cases hs : vc.checkSPF <;>
    cases hk : vc.checkDKIM <;> simp [hd, hs, hk] <;>
    first
      | exact validateDMARC_mem _ _ _ _
      | decide

theorem option_bool_cases (o : Option Bool) :
    o = none ∨ o = some true ∨ o = some false := by
  cases o with
  | none => exact Or.inl rfl
  | some b =>
    cases b with
    | false => exact Or.inr (Or.inr rfl)
    | true => exact Or.inr (Or.inl rfl)

theorem map_eq_self_mem {α : Type} (f : α → α) :
    ∀ (l : List α), l.map f = l → ∀ c ∈ l, f c = c := by
  intro l
  induction l with
  | nil => intro _ c hc; cases hc
  | cons a t ih =>
    intro h c hc
    rw [List.map_cons, List.cons.injEq] at h
    rcases List.mem_cons.mp hc with rfl | hc'
    · exact h.1
    · exact ih h.2 c hc'

theorem sizeErr_ne_processing (n : String) :
    ("message too large (max " ++ n ++ " MB)" : String) ≠
      "error processing message" := by
  intro h
  have h2 := congrArg (fun s => s.data.take 4) h
  simp only [String.data_append, List.append_assoc] at h2
  rw [@List.take_append_of_le_length Char "message too large (max ".data
    (n.data ++ " MB)".data) 4 (by decide)] at h2
  exact absurd h2 (by decide)

theorem sizeLimitedRead_bound (M : Int) (msg : List Nat) :
    ((sizeLimitedRead M msg).length : Int) ≤ max M 0 := by
  simp only [sizeLimitedRead, List.length_take]
  omega

theorem sizeLimitedRead_ge_iff (M : Int) (msg : List Nat) :
    M ≤ ((sizeLimitedRead M msg).length : Int) ↔ M ≤ (msg.length : Int) := by
  simp only [sizeLimitedRead, List.length_take]
  omega

theorem not_contains_iff (l : List Nat) (x : Nat) :
    (!(l.contains x)) = true ↔ x ∉ l := by
  cases hc : l.contains x with
  | false =>
    constructor
    · intro _ hm
      have hco : l.contains x = true := List.elem_iff.mpr hm
      exact Bool.noConfusion (hc.symm.trans hco)
    · intro _
      rfl
  | true =>
    constructor
    · intro h
      exact absurd h (by decide)
    · intro hm
      exact absurd (List.elem_iff.mp hc) hm

theorem EnforceEmailLimit_eq (st : MailStore) (aid : Nat) :
    EnforceEmailLimit st aid =
      { st with
          emails := st.emails.filter
            (fun e => !((doomedIds st aid).contains e.id))
          links := st.links.filter
            (fun l => !((doomedIds st aid).contains l.emailId))
          attachments := st.attachments.filter
            (fun a => !((doomedIds st aid).contains a.emailId)) } := rfl

theorem link_any_filter (links : List LinkRow) (doomed : List Nat)
    (e : EmailRow) (aid : Nat) (he : e.id ∉ doomed) :
    (links.filter (fun l => !(doomed.contains l.emailId))).any
        (fun l => l.emailId == e.id && l.addressId == aid) =
      links.any (fun l => l.emailId == e.id && l.addressId == aid) := by
  rw [Bool.eq_iff_iff, List.any_eq_true, List.any_eq_true]
  constructor
  · rintro ⟨l, hlmem, hp⟩
    exact ⟨l, (List.mem_filter.mp hlmem).1, hp⟩
  · rintro ⟨l, hlmem, hp⟩
    obtain ⟨h1, h2⟩ : l.emailId = e.id ∧ l.addressId = aid := by
      simpa using hp
    refine ⟨l, List.mem_filter.mpr ⟨hlmem, ?_⟩, hp⟩
    rw [h1]
    exact (not_contains_iff doomed e.id).mpr he

theorem mailboxEmails_enforce (st : MailStore) (aid : Nat) :
    mailboxEmails (EnforceEmailLimit st aid) aid =
      (mailboxEmails st aid).filter
        (fun e => !((doomedIds st aid).contains e.id)) := by
  have hE : (EnforceEmailLimit st aid).emails =
      st.emails.filter (fun e => !((doomedIds st aid).contains e.id)) := rfl
  have hK : (EnforceEmailLimit st aid).links =
      st.links.filter (fun l => !((doomedIds st aid).contains l.emailId)) :=
    rfl
  unfold mailboxEmails
  rw [hE, hK, List.filter_filter, List.filter_filter]
  apply List.filter_congr
  intro e he
  cases hnd : (doomedIds st aid).contains e.id with
  | false =>
    have hni : e.id ∉ doomedIds st aid :=
      (not_contains_iff _ _).mp (by rw [hnd]; rfl)
    rw [link_any_filter st.links (doomedIds st aid) e aid hni]
    simp
  | true => simp

theorem mem_mailboxEmails_enforce (st : MailStore) (aid : Nat)
    (e : EmailRow) :
    e ∈ mailboxEmails (EnforceEmailLimit st aid) aid ↔
      e ∈ mailboxEmails st aid ∧ e.id ∉ doomedIds st aid := by
  rw [mailboxEmails_enforce, List.mem_filter]
  exact and_congr_right (fun _ => not_contains_iff _ _)

/-! ## Claim theorems -/

/-- C3.  The simplified SPF evaluator: result is `"none"` when the
envelope-from has no `@domain`, when the peer IP does not parse, or when
no TXT record at the sender domain starts with `v=spf1` (including DNS
errors); otherwise the mechanisms are scanned left to right stopping at
the first match (`ip4:`/`ip6:` with optional CIDR matching the peer IP →
`"pass"`, `a`/`+a` → `"neutral"`, `-all` → `"fail"`, `~all` →
`"softfail"`, `?all` → `"neutral"`, end of record → `"neutral"`); and the
two literal scenarios of the spec (`v=spf1 ip4:192.0.2.10 -all` with peer
`192.0.2.10` resp. `203.0.113.5`) evaluate to `"pass"` resp. `"fail"`. -/
theorem c3_spf_evaluator :
    ((∀ (dns : String → Option (List String)) clientIP heloName fromAddr,
        extractDomain fromAddr = "" →
        validateSPF dns clientIP heloName fromAddr = "none") ∧
      (∀ (dns : String → Option (List String)) clientIP heloName fromAddr,
        parseIP clientIP = none →
        validateSPF dns clientIP heloName fromAddr = "none") ∧
      (∀ (dns : String → Option (List String)) clientIP heloName fromAddr,
        lookupSPFRecord dns (extractDomain fromAddr) = none →
        validateSPF dns clientIP heloName fromAddr = "none")) ∧
    ((∀ ip rest, spfScan ip ("-all" :: rest) = "fail") ∧
      (∀ ip rest, spfScan ip ("~all" :: rest) = "softfail") ∧
      (∀ ip rest, spfScan ip ("?all" :: rest) = "neutral") ∧
      (∀ ip rest, spfScan ip ("a" :: rest) = "neutral") ∧
      (∀ ip rest, spfScan ip ("+a" :: rest) = "neutral") ∧
      (∀ ip, spfScan ip [] = "neutral") ∧
      (∀ ip mech rest,
        (hasPfxStr "ip4:" mech || hasPfxStr "ip6:" mech) = true →
        matchIP ip (dropPfxStr "ip6:" (dropPfxStr "ip4:" mech)) = true →
        spfScan ip (mech :: rest) = "pass") ∧
      (∀ ip mech rest,
        (hasPfxStr "ip4:" mech || hasPfxStr "ip6:" mech) = true →
        matchIP ip (dropPfxStr "ip6:" (dropPfxStr "ip4:" mech)) = false →
        spfScan ip (mech :: rest) = spfScan ip rest)) ∧
    (validateSPF
        (fun d => if d = "example.org" then
          some ["v=spf1 ip4:192.0.2.10 -all"] else none)
        "192.0.2.10" "helo" "sender@example.org" = "pass" ∧
      validateSPF
        (fun d => if d = "example.org" then
          some ["v=spf1 ip4:192.0.2.10 -all"] else none)
        "203.0.113.5" "helo" "sender@example.org" = "fail") := by
  refine ⟨⟨?_, ?_, ?_⟩, ⟨?_, ?_, ?_, ?_, ?_, ?_, ?_, ?_⟩, by decide, by decide⟩
  · intro dns clientIP heloName fromAddr h
    simp [validateSPF, h]
  · intro dns clientIP heloName fromAddr h
    by_cases hd : extractDomain fromAddr = ""
    · simp [validateSPF, hd]
    · unfold validateSPF
      rw [if_neg hd, h]
  · intro dns clientIP heloName fromAddr h
    by_cases hd : extractDomain fromAddr = ""
    · simp [validateSPF, hd]
    · unfold validateSPF
      rw [if_neg hd]
      cases hip : parseIP clientIP with
      | none => rfl
      | some ip => rw [h]
  · intro ip rest; rfl
  · intro ip rest; rfl
  · intro ip rest; rfl
  · intro ip rest; rfl
  · intro ip rest; rfl
  · intro ip; rfl
  · intro ip mech rest h1 h2
    simp [spfScan, h1, h2]
  · intro ip mech rest h1 h2
    simp [spfScan, h1, h2]

/-- C3 witness: the hypothesis-bearing conjuncts of `c3_spf_evaluator`
instantiated at concrete inputs. -/
theorem c3_spf_evaluator_witness :
    validateSPF (fun _ => none) "1.2.3.4" "helo" "nodomain" = "none" ∧
    validateSPF (fun _ => none) "not-an-ip" "helo" "a@b.com" = "none" ∧
    validateSPF (fun _ => some ["unrelated"]) "1.2.3.4" "helo" "a@b.com" =
      "none" ∧
    spfScan [192, 0, 2, 10] ["ip4:192.0.2.10", "-all"] = "pass" ∧
    spfScan [192, 0, 2, 10] ["ip4:203.0.113.0/24", "-all"] =
      spfScan [192, 0, 2, 10] ["-all"] :=
  ⟨c3_spf_evaluator.1.1 _ _ _ _ (by decide),
    c3_spf_evaluator.1.2.1 _ _ _ _ (by decide),
    c3_spf_evaluator.1.2.2 _ _ _ _ (by decide),
    c3_spf_evaluator.2.1.2.2.2.2.2.2.1 _ _ _ (by decide) (by decide),
    c3_spf_evaluator.2.1.2.2.2.2.2.2.2 _ _ _ (by decide) (by decide)⟩

/-- C4.  The DMARC verdict is `"none"` when the envelope-from domain is
empty or when no TXT record at `_dmarc.<domain>` starts with `v=DMARC1`
(including DNS errors); when such a record is present, the verdict is
`"pass"` iff the SPF result is `"pass"` or the DKIM result is `true`, and
`"fail"` otherwise. -/
theorem c4_dmarc_verdict :
    (∀ (dns : String → Option (List String)) spfResult dkimValid,
      validateDMARC dns "" spfResult dkimValid = "none") ∧
    (∀ (dns : String → Option (List String)) domain spfResult dkimValid,
      lookupDMARCRecord dns domain = none →
      validateDMARC dns domain spfResult dkimValid = "none") ∧
    (∀ (dns : String → Option (List String)) domain spfResult dkimValid,
      domain ≠ "" → (lookupDMARCRecord dns domain).isSome →
      ((validateDMARC dns domain spfResult dkimValid = "pass" ↔
          (spfResult = "pass" ∨ dkimValid = some true)) ∧
        (validateDMARC dns domain spfResult dkimValid = "fail" ↔
          ¬(spfResult = "pass" ∨ dkimValid = some true)))) := by
  refine ⟨?_, ?_, ?_⟩
  · intro dns spfResult dkimValid
    simp [validateDMARC]
  · intro dns domain spfResult dkimValid h
    by_cases hne : domain = ""
    · simp [validateDMARC, hne]
    · unfold validateDMARC
      rw [if_neg hne, h]
  · intro dns domain spfResult dkimValid hne hrec
    rcases Option.isSome_iff_exists.mp hrec with ⟨r, hr⟩
    rw [validateDMARC_of_record dns domain spfResult dkimValid hne r hr]
    by_cases hc : spfResult = "pass" ∨ dkimValid = some true
    · rw [if_pos hc]
      exact ⟨⟨fun _ => hc, fun _ => rfl⟩,
        ⟨fun hh => absurd hh (by decide), fun hnc => (hnc hc).elim⟩⟩
    · rw [if_neg hc]
      exact ⟨⟨fun hh => absurd hh (by decide), fun hcc => (hc hcc).elim⟩,
        ⟨fun _ => hc, fun _ => rfl⟩⟩

/-- C4 witness: `c4_dmarc_verdict` instantiated at concrete inputs. -/
theorem c4_dmarc_verdict_witness :
    validateDMARC (fun _ => some ["nothing"]) "example.com" "pass" none =
      "none" ∧
    ((validateDMARC (fun d => if d = "_dmarc.example.com" then
        some ["v=DMARC1; p=none"] else none) "example.com" "fail"
        (some true) = "pass" ↔
      ("fail" = "pass" ∨ (some true : Option Bool) = some true)) ∧
      (validateDMARC (fun d => if d = "_dmarc.example.com" then
        some ["v=DMARC1; p=none"] else none) "example.com" "fail"
        (some true) = "fail" ↔
      ¬("fail" = "pass" ∨ (some true : Option Bool) = some true))) :=
  ⟨c4_dmarc_verdict.2.1 _ _ _ _ (by decide),
    c4_dmarc_verdict.2.2 _ _ _ _ (by decide) (by decide)⟩

/-- C5 (amended).  When the session has a validator (some check enabled),
every message it hands to the store carries `spf_result` in the enumerated
SPF set, `dmarc_result` in `{pass, fail, none}`, and `dkim_valid` null,
true, or false.  When all validation checks are disabled (no validator),
the stored `spf_result` and `dmarc_result` are the empty string — which
is outside the enumerated sets — and `dkim_valid` is null. -/
theorem c5_auth_triple_ranges :
    ∀ (cfg : Config) (ctx : DataCtx) (fromAddr : String) (msg : List Nat)
      (ed : EmailData) (atts : List AttachmentData),
      sessionData cfg ctx fromAddr msg = .ok (ed, atts) →
      (∀ v, ctx.validation = some v →
        ed.spfResult ∈ spfResultSet ∧ ed.dmarcResult ∈ dmarcResultSet ∧
        (ed.dkimValid = none ∨ ed.dkimValid = some true ∨
          ed.dkimValid = some false)) ∧
      (ctx.validation = none →
        ed.spfResult = "" ∧ ed.dmarcResult = "" ∧ ed.dkimValid = none) := by
  intro cfg ctx fromAddr msg ed atts h
  simp only [sessionData] at h
  split at h
  · exact Except.noConfusion h
  · split at h
    · exact Except.noConfusion h
    · split at h
      · exact Except.noConfusion h
      · next env henv =>
        simp only [Except.ok.injEq, Prod.mk.injEq] at h
        obtain ⟨hed, hatts⟩ := h
        subst hed
        constructor
        · intro v hv
          rw [hv]
          refine ⟨?_, ?_, ?_⟩
          · exact ValidateEmail_spf_mem _ _ _ _ _ _
          · exact ValidateEmail_dmarc_mem _ _ _ _ _ _
          · exact option_bool_cases _
        · intro hv
          rw [hv]
          exact ⟨rfl, rfl, rfl⟩

/-- C5 counterexample: with all validation checks disabled (the session
has no validator), a committed message's `spf_result` is the empty
string, which is not in the enumerated SPF result set — contradicting the
claim that the triple lies in the enumerated sets "including messages
received while validation checks are disabled". -/
theorem c5_disabled_validation_empty_spf :
    (sessionData ⟨["temp.test"], 1, ⟨false, false, false, false⟩⟩
        ⟨false, fun _ => some ⟨[], "t", "", [], []⟩, fun _ => none, 7, none⟩
        "a@b" [1]).toOption.map (fun p => p.1.spfResult) = some "" ∧
    "" ∉ spfResultSet := by decide

/-- C5 witness: `c5_auth_triple_ranges` at a concrete input with a
validator present (all checks on, DKIM verification errored, empty DNS). -/
theorem c5_auth_triple_ranges_witness :
    (⟨"", "", "a@b", "", "", "t", "", [1], 1, some false, "none", "none",
        false, 7⟩ : EmailData).spfResult ∈ spfResultSet ∧
    (⟨"", "", "a@b", "", "", "t", "", [1], 1, some false, "none", "none",
        false, 7⟩ : EmailData).dmarcResult ∈ dmarcResultSet ∧
    ((⟨"", "", "a@b", "", "", "t", "", [1], 1, some false, "none", "none",
        false, 7⟩ : EmailData).dkimValid = none ∨
      (⟨"", "", "a@b", "", "", "t", "", [1], 1, some false, "none", "none",
        false, 7⟩ : EmailData).dkimValid = some true ∨
      (⟨"", "", "a@b", "", "", "t", "", [1], 1, some false, "none", "none",
        false, 7⟩ : EmailData).dkimValid = some false) :=
  (c5_auth_triple_ranges ⟨["temp.test"], 1, ⟨true, true, true, true⟩⟩
      ⟨false, fun _ => some ⟨[], "t", "", [], []⟩, fun _ => none, 7,
        some ⟨⟨true, true, true, true⟩, none, fun _ => none, "1.2.3.4", "h"⟩⟩
      "a@b" [1] _ [] (by decide)).1
    ⟨⟨true, true, true, true⟩, none, fun _ => none, "1.2.3.4", "h"⟩ rfl

/-- C7 (amended).  The DATA handler reads at most `max_size` bytes
(`io.LimitReader`), and — absent a socket read error — replies with the
size-overflow error exactly when the message size is **at least**
`max_size` (the source tests `size >= maxSize`, so a message of exactly
`max_size` bytes is also rejected); messages smaller than `max_size`
proceed to parsing. -/
theorem c7_size_check :
    (∀ (cfg : Config) (msg : List Nat),
      ((sizeLimitedRead (getMaxMessageSize cfg) msg).length : Int) ≤
        max (getMaxMessageSize cfg) 0) ∧
    (∀ (cfg : Config) (ctx : DataCtx) (fromAddr : String) (msg : List Nat),
      ctx.readErr = false →
      (sessionData cfg ctx fromAddr msg =
          .error ("message too large (max " ++ toString cfg.maxMsgSizeMB ++
            " MB)") ↔
        getMaxMessageSize cfg ≤ (msg.length : Int))) := by
  constructor
  · intro cfg msg
    exact sizeLimitedRead_bound _ _
  · intro cfg ctx fromAddr msg hre
    constructor
    · intro h
      by_contra hlt
      have hsz : ¬(getMaxMessageSize cfg ≤
          ((sizeLimitedRead (getMaxMessageSize cfg) msg).length : Int)) :=
        fun hc => hlt ((sizeLimitedRead_ge_iff _ _).mp hc)
      simp only [sessionData] at h
      rw [hre] at h
      rw [if_neg (by decide)] at h
      rw [if_neg hsz] at h
      cases henv : ctx.readEnvelope (sizeLimitedRead (getMaxMessageSize cfg) msg) with
      | none =>
        rw [henv] at h
        injection h with h'
        exact sizeErr_ne_processing _ h'.symm
      | some env =>
        rw [henv] at h
        exact Except.noConfusion h
    · intro hge
      have hsz : getMaxMessageSize cfg ≤
          ((sizeLimitedRead (getMaxMessageSize cfg) msg).length : Int) :=
        (sizeLimitedRead_ge_iff _ _).mpr hge
      simp only [sessionData]
      rw [hre]
      rw [if_neg (by decide), if_pos hsz]

/-- C7 counterexample: with the 1 MB configured cap, a message of exactly
`max_size = 1048576` bytes — i.e. a message whose size is at most
`max_size` — is rejected with the size-overflow error, refuting the claim
that only messages exceeding `max_size` are rejected. -/
theorem c7_exact_max_rejected :
    ((List.replicate 1048576 0 : List Nat).length : Int) ≤
      getMaxMessageSize ⟨["d"], 1, ⟨false, false, false, false⟩⟩ ∧
    sessionData ⟨["d"], 1, ⟨false, false, false, false⟩⟩
        ⟨false, fun _ => some ⟨[], "t", "", [], []⟩, fun _ => none, 0, none⟩
        "f@x" (List.replicate 1048576 0) =
      .error ("message too large (max " ++
        toString (⟨["d"], 1, ⟨false, false, false, false⟩⟩ :
          Config).maxMsgSizeMB ++ " MB)") := by
  have hlen : ((sizeLimitedRead
      (getMaxMessageSize ⟨["d"], 1, ⟨false, false, false, false⟩⟩)
      (List.replicate 1048576 0)).length : Int) = 1048576 := by
    rw [sizeLimitedRead, getMaxMessageSize, List.take_replicate]
    norm_num
  constructor
  · rw [List.length_replicate, getMaxMessageSize]
    norm_num
  · simp only [sessionData]
    rw [if_neg (by decide), if_pos (by rw [hlen, getMaxMessageSize]; norm_num)]

/-- C7 witness: the size-check characterisation of `c7_size_check` at a
concrete configuration and the empty message. -/
theorem c7_size_check_witness :
    sessionData ⟨["d"], 1, ⟨false, false, false, false⟩⟩
        ⟨false, fun _ => some ⟨[], "t", "", [], []⟩, fun _ => none, 0, none⟩
        "f@x" [] =
      .error ("message too large (max " ++
        toString (⟨["d"], 1, ⟨false, false, false, false⟩⟩ :
          Config).maxMsgSizeMB ++ " MB)") ↔
      getMaxMessageSize ⟨["d"], 1, ⟨false, false, false, false⟩⟩ ≤
        (([] : List Nat).length : Int) :=
  c7_size_check.2 ⟨["d"], 1, ⟨false, false, false, false⟩⟩
    ⟨false, fun _ => some ⟨[], "t", "", [], []⟩, fun _ => none, 0, none⟩
    "f@x" [] rfl

/-- C8 (amended).  The placeholder plain body is substituted exactly when
the extracted plain-text body is empty **and the HTML body is
non-empty**; when both are empty the stored `body_plain` stays the empty
string (the claim's "both empty → placeholder" is what fails).  The
`body_plain` handed to the store is the one `extractEmailData`
produced. -/
theorem c8_placeholder_rule :
    (∀ (fromAddr : String) (pd : String → Option Nat) (now : Nat)
      (env : Envelope) (raw : List Nat) (size : Int),
      (env.text = "" ∧ env.html ≠ "" →
        (extractEmailData fromAddr pd now env raw size).bodyPlain =
          "[HTML email - plain text not provided]") ∧
      (env.text = "" ∧ env.html = "" →
        (extractEmailData fromAddr pd now env raw size).bodyPlain = "") ∧
      (env.text ≠ "" →
        (extractEmailData fromAddr pd now env raw size).bodyPlain =
          env.text)) ∧
    (∀ (cfg : Config) (ctx : DataCtx) (fromAddr : String) (msg : List Nat)
      (ed : EmailData) (atts : List AttachmentData),
      sessionData cfg ctx fromAddr msg = .ok (ed, atts) →
      ∃ env, ctx.readEnvelope (sizeLimitedRead (getMaxMessageSize cfg) msg) =
          some env ∧
        ed.bodyPlain = (extractEmailData fromAddr ctx.parseDate ctx.now env
          (sizeLimitedRead (getMaxMessageSize cfg) msg)
          ((sizeLimitedRead (getMaxMessageSize cfg) msg).length :
            Int)).bodyPlain) := by
  constructor
  · intro fromAddr pd now env raw size
    refine ⟨?_, ?_, ?_⟩
    · intro hc
      show (if env.text = "" ∧ env.html ≠ "" then
        "[HTML email - plain text not provided]" else env.text) = _
      rw [if_pos hc]
    · intro hc
      show (if env.text = "" ∧ env.html ≠ "" then
        "[HTML email - plain text not provided]" else env.text) = _
      rw [if_neg (fun hh => hh.2 hc.2)]
      exact hc.1
    · intro ht
      show (if env.text = "" ∧ env.html ≠ "" then
        "[HTML email - plain text not provided]" else env.text) = _
      rw [if_neg (fun hh => ht hh.1)]
  · intro cfg ctx fromAddr msg ed atts h
    simp only [sessionData] at h
    split at h
    · exact Except.noConfusion h
    · split at h
      · exact Except.noConfusion h
      · split at h
        · exact Except.noConfusion h
        · next env henv =>
          simp only [Except.ok.injEq, Prod.mk.injEq] at h
          obtain ⟨hed, hatts⟩ := h
          subst hed
          refine ⟨env, henv, ?_⟩
          cases hval : ctx.validation with
          | none => rfl
          | some v => rfl

/-- C8 counterexample: a message whose extracted plain and HTML bodies
are both empty is stored with `body_plain = ""` — the empty string, not a
placeholder — refuting the claim. -/
theorem c8_both_empty_no_placeholder :
    (sessionData ⟨["temp.test"], 1, ⟨false, false, false, false⟩⟩
        ⟨false, fun _ => some ⟨[], "", "", [], []⟩, fun _ => none, 7, none⟩
        "a@b" [1]).toOption.map (fun p => p.1.bodyPlain) = some "" := by
  decide

/-- C8 witness: `c8_placeholder_rule` at concrete envelopes (plain empty
with HTML present → placeholder; both empty → empty string). -/
theorem c8_placeholder_rule_witness :
    (extractEmailData "f" (fun _ => none) 3 ⟨[], "", "h", [], []⟩ []
        0).bodyPlain = "[HTML email - plain text not provided]" ∧
    (extractEmailData "f" (fun _ => none) 3 ⟨[], "", "", [], []⟩ []
        0).bodyPlain = "" :=
  ⟨(c8_placeholder_rule.1 "f" (fun _ => none) 3 ⟨[], "", "h", [], []⟩ []
      0).1 ⟨rfl, by decide⟩,
    (c8_placeholder_rule.1 "f" (fun _ => none) 3 ⟨[], "", "", [], []⟩ []
      0).2.1 ⟨rfl, rfl⟩⟩

/-- C9 (amended).  `extractEmailData` computes a sent-date from the
`Date:` header, substituting the receive instant when the header is
absent or unparseable — but then discards it: the output record has no
sent-date field, and its `ReceivedAt` is always the receive instant
(`time.Now()`), regardless of the `Date:` header. -/
theorem c9_sent_date_substitution :
    (∀ (pd : String → Option Nat) (now : Nat),
      computeSentDate pd "" now = now) ∧
    (∀ (pd : String → Option Nat) (ds : String) (now : Nat),
      pd ds = none → computeSentDate pd ds now = now) ∧
    (∀ (pd : String → Option Nat) (ds : String) (now t : Nat),
      ds ≠ "" → pd ds = some t → t ≠ 0 → computeSentDate pd ds now = t) ∧
    (∀ (fromAddr : String) (pd : String → Option Nat) (now : Nat)
      (env : Envelope) (raw : List Nat) (size : Int),
      (extractEmailData fromAddr pd now env raw size).receivedAt = now) ∧
    (∀ (cfg : Config) (ctx : DataCtx) (fromAddr : String) (msg : List Nat)
      (ed : EmailData) (atts : List AttachmentData),
      sessionData cfg ctx fromAddr msg = .ok (ed, atts) →
      ed.receivedAt = ctx.now) := by
  refine ⟨?_, ?_, ?_, ?_, ?_⟩
  · intro pd now
    rfl
  · intro pd ds now h
    by_cases hds : ds = ""
    · subst hds; rfl
    · simp [computeSentDate, hds, h]
  · intro pd ds now t hds h ht
    simp [computeSentDate, hds, h, ht]
  · intro fromAddr pd now env raw size
    rfl
  · intro cfg ctx fromAddr msg ed atts h
    simp only [sessionData] at h
    split at h
    · exact Except.noConfusion h
    · split at h
      · exact Except.noConfusion h
      · split at h
        · exact Except.noConfusion h
        · next env henv =>
          simp only [Except.ok.injEq, Prod.mk.injEq] at h
          obtain ⟨hed, hatts⟩ := h
          subst hed
          cases hval : ctx.validation with
          | none => rfl
          | some v => rfl

/-- C9 counterexample: a message whose `Date:` header parses to the
instant `5` is extracted, at receive instant `99`, into a record whose
only timestamp field is `receivedAt = 99`; the computed sent-date `5`
appears nowhere in the output record, refuting the claim that the output
includes the message's sent-date. -/
theorem c9_sent_date_dropped :
    sessionData ⟨["temp.test"], 1, ⟨false, false, false, false⟩⟩
        ⟨false, fun _ => some ⟨[("Date", ["D"])], "t", "", [], []⟩,
          fun s => if s = "D" then some 5 else none, 99, none⟩
        "f@x" [1, 2] =
      .ok (⟨"", "", "f@x", "", "Date: D\n", "t", "", [1, 2], 2, none, "",
        "", false, 99⟩, []) ∧
    computeSentDate (fun s => if s = "D" then some 5 else none) "D" 99 = 5 ∧
    (99 : Nat) ≠ 5 := by decide

/-- C9 witness: the substitution clauses of `c9_sent_date_substitution`
at concrete inputs (unparseable date → receive instant; parseable date →
the parsed instant). -/
theorem c9_sent_date_substitution_witness :
    computeSentDate (fun _ => none) "garbage" 42 = 42 ∧
    computeSentDate (fun s => if s = "D" then some 5 else none) "D" 42 = 5 :=
  ⟨c9_sent_date_substitution.2.1 (fun _ => none) "garbage" 42 rfl,
    c9_sent_date_substitution.2.2.1 (fun s => if s = "D" then some 5 else none)
      "D" 42 5 (by decide) (by decide) (by decide)⟩

/-- C1 (code evidence).  The shipped `Session.Rcpt` accepts
`ghost@temp.test` — a syntactically valid address on an allowed domain —
without consulting the mail store, even though no such mailbox exists
(`AddressExists` is false on a store with no addresses).  The claim's
third acceptance condition (mailbox existence) is not enforced at RCPT
time: the session is the catch-all variant. -/
theorem c1_rcpt_accepts_unknown_mailbox :
    Rcpt ["temp.test"] (some "ghost@temp.test") [] =
      .ok ["ghost@temp.test"] ∧
    AddressExists ⟨[], [], [], [], 0⟩ "ghost@temp.test" = false := by decide

/-- C2 (amended).  `StoreEmail` is atomic: on any error in the insert /
address-resolution / link / attachment / commit steps, the store is
returned unchanged (the transaction is rolled back before commit); the
surfaced error, however, is not the underlying error unchanged but that
error wrapped with a step-identifying message
(`fmt.Errorf("...: %w", err)`).  On success, exactly the email row, one
recipient link and the attachment rows are appended. -/
theorem c2_store_transaction_atomic :
    ∀ (st : MailStore) (f : DBFault) (email : EmailData)
      (atts : List AttachmentData),
      ((StoreEmail st f email atts).2 = none →
        ∃ addressID,
          getAddressTx st f.queryAddress email.toAddr = .ok addressID ∧
          (StoreEmail st f email atts).1 =
            { st with
                emails := st.emails ++ [⟨st.nextId, email⟩]
                links := st.links ++ [⟨st.nextId, addressID⟩]
                attachments :=
                  st.attachments ++ atts.map (fun a => ⟨st.nextId, a⟩)
                nextId := st.nextId + 1 }) ∧
      (∀ m, (StoreEmail st f email atts).2 = some m →
        (StoreEmail st f email atts).1 = st ∧
        ∃ e, m = "failed to begin transaction: " ++ e ∨
          m = "failed to insert email: " ++ e ∨
          m = "failed to get address: " ++ e ∨
          m = "failed to link email to address: " ++ e ∨
          m = "failed to insert attachment: " ++ e ∨
          m = "failed to commit transaction: " ++ e) := by
  intro st f email atts
  unfold StoreEmail
  cases hb : f.beginTx with
  | some e =>
    refine ⟨fun h => Option.noConfusion h, fun m hm => ?_⟩
    injection hm with hm'
    subst hm'
    exact ⟨rfl, e, Or.inl rfl⟩
  | none =>
  cases hi : f.insertEmail with
  | some e =>
    refine ⟨fun h => Option.noConfusion h, fun m hm => ?_⟩
    injection hm with hm'
    subst hm'
    exact ⟨rfl, e, Or.inr (Or.inl rfl)⟩
  | none =>
  cases hg : getAddressTx st f.queryAddress email.toAddr with
  | error e =>
    refine ⟨fun h => Option.noConfusion h, fun m hm => ?_⟩
    injection hm with hm'
    subst hm'
    exact ⟨rfl, e, Or.inr (Or.inr (Or.inl rfl))⟩
  | ok addressID =>
  cases hl : f.insertLink with
  | some e =>
    refine ⟨fun h => Option.noConfusion h, fun m hm => ?_⟩
    injection hm with hm'
    subst hm'
    exact ⟨rfl, e, Or.inr (Or.inr (Or.inr (Or.inl rfl)))⟩
  | none =>
  cases ha : attachLoop f.insertAttachment atts 0 with
  | some e =>
    refine ⟨fun h => Option.noConfusion h, fun m hm => ?_⟩
    injection hm with hm'
    subst hm'
    exact ⟨rfl, e, Or.inr (Or.inr (Or.inr (Or.inr (Or.inl rfl))))⟩
  | none =>
  cases hc : f.commit with
  | some e =>
    refine ⟨fun h => Option.noConfusion h, fun m hm => ?_⟩
    injection hm with hm'
    subst hm'
    exact ⟨rfl, e, Or.inr (Or.inr (Or.inr (Or.inr (Or.inr rfl))))⟩
  | none =>
    exact ⟨fun _ => ⟨addressID, rfl, rfl⟩, fun m hm => Option.noConfusion hm⟩

/-- C2 counterexample: when the email insert fails with driver error
`"boom"`, the caller receives `"failed to insert email: boom"`, not the
error unchanged — refuting the claim's "surfaced unchanged" clause. -/
theorem c2_error_not_unchanged :
    (StoreEmail ⟨[⟨1, "a@b"⟩], [], [], [], 5⟩
        ⟨none, some "boom", none, none, fun _ => none, none⟩
        ⟨"", "", "", "a@b", "", "", "", [], 0, none, "", "", false, 0⟩
        []).2 = some "failed to insert email: boom" ∧
    ("failed to insert email: boom" : String) ≠ "boom" := by decide

/-- C2 witness: `c2_store_transaction_atomic` at a concrete fault-free
store call (the success clause). -/
theorem c2_store_transaction_atomic_witness :
    ∃ addressID,
      getAddressTx ⟨[⟨1, "a@b"⟩], [], [], [], 5⟩ none "a@b" =
        .ok addressID ∧
      (StoreEmail ⟨[⟨1, "a@b"⟩], [], [], [], 5⟩
          ⟨none, none, none, none, fun _ => none, none⟩
          ⟨"", "", "", "a@b", "", "", "", [], 0, none, "", "", false, 0⟩
          []).1 =
        { (⟨[⟨1, "a@b"⟩], [], [], [], 5⟩ : MailStore) with
            emails := ([] : List EmailRow) ++
              [⟨5, ⟨"", "", "", "a@b", "", "", "", [], 0, none, "", "",
                false, 0⟩⟩]
            links := ([] : List LinkRow) ++ [⟨5, addressID⟩]
            attachments := ([] : List AttRow) ++
              ([] : List AttachmentData).map (fun a => ⟨5, a⟩)
            nextId := 5 + 1 } :=
  (c2_store_transaction_atomic ⟨[⟨1, "a@b"⟩], [], [], [], 5⟩
    ⟨none, none, none, none, fun _ => none, none⟩
    ⟨"", "", "", "a@b", "", "", "", [], 0, none, "", "", false, 0⟩ []).1 rfl

/-- C10 (amended).  `GetDomainMap` keys the domain map by the configured
strings exactly as written while `Rcpt` lower-cases the incoming domain
before the lookup; hence if a configured domain `D` contains an uppercase
letter (a character changed by case folding) and no *other* configured
domain string equals `lowercase(D)`, then every RCPT TO addressed to that
domain — whatever the client's spelling `X` with `lowercase(X) =
lowercase(D)` — is refused.  (The claim as stated omits the italicised
proviso; `c10_lowercase_twin_accepted` shows it is needed.) -/
theorem c10_uppercase_domain_unreachable :
    ∀ (ds : List String) (D : String), D ∈ ds →
      (∃ c ∈ D.data, lowerChar c ≠ c) →
      (∀ d ∈ ds, d ≠ D → d ≠ toLowerStr D) →
      ∀ (address lpart X : String) (toList : List String),
        splitOnChar '@' address = [lpart, X] →
        toLowerStr X = toLowerStr D →
        Rcpt ds (some address) toList =
          .error ("relay access denied for domain " ++ toLowerStr X) := by
  intro ds D hD hup hlow address lpart X toList hsplit hXD
  have hDne : toLowerStr D ≠ D := by
    intro he
    obtain ⟨c, hc, hne⟩ := hup
    have hmap : D.data.map lowerChar = D.data := by
      have h2 := congrArg String.data he
      simpa [toLowerStr] using h2
    exact hne (map_eq_self_mem lowerChar D.data hmap c hc)
  have hcont : domainAllowed ds (toLowerStr X) = false := by
    rw [hXD]
    cases hcn : domainAllowed ds (toLowerStr D) with
    | false => rfl
    | true =>
      have hmem : toLowerStr D ∈ ds := List.elem_iff.mp hcn
      rcases eq_or_ne (toLowerStr D) D with he | hne2
      · exact absurd he hDne
      · exact absurd rfl (hlow (toLowerStr D) hmem hne2)
  simp only [Rcpt, hsplit]
  rw [hcont]
  rfl

/-- C10 counterexample: with configured domains
`["TEMP.test", "temp.test"]`, the domain `TEMP.test` contains an
uppercase letter, yet `RCPT TO:<x@TEMP.test>` is accepted (the lowercased
lookup hits the separately configured lowercase twin) — refuting the
unconditional claim that every RCPT to an uppercase-configured domain is
rejected. -/
theorem c10_lowercase_twin_accepted :
    "TEMP.test" ∈ getDomainMap ⟨["TEMP.test", "temp.test"], 10,
      ⟨false, false, false, false⟩⟩ ∧
    (∃ c ∈ "TEMP.test".data, lowerChar c ≠ c) ∧
    Rcpt (getDomainMap ⟨["TEMP.test", "temp.test"], 10,
        ⟨false, false, false, false⟩⟩) (some "x@TEMP.test") [] =
      .ok ["x@temp.test"] := by decide

/-- C10 witness: `c10_uppercase_domain_unreachable` at the concrete
configuration `["TEMP.test"]`, client spelling `x@TEMP.test`. -/
theorem c10_uppercase_domain_unreachable_witness :
    Rcpt ["TEMP.test"] (some "x@TEMP.test") [] =
      .error ("relay access denied for domain " ++ toLowerStr "TEMP.test") :=
  c10_uppercase_domain_unreachable ["TEMP.test"] "TEMP.test" (by decide)
    ⟨'T', by decide, by decide⟩ (by decide) "x@TEMP.test" "x" "TEMP.test" []
    (by decide) rfl

/-- C6.  After `EnforceEmailLimit` runs for a mailbox (the cap is the
source's hard-coded 100): at most 100 messages remain linked to it; every
retained message was linked before; every deleted message is no newer
than any retained one (the deleted excess are the oldest by
`received_at`); nothing is deleted when the mailbox was within the cap;
and exactly 100 remain when it was at or over the cap — i.e. the
retained messages are those with the 100 largest `received_at` values.
The hypothesis is the schema's primary-key constraint (distinct email
ids). -/
theorem c6_enforce_limit :
    ∀ (st : MailStore) (addressID : Nat),
      (st.emails.map (fun e => e.id)).Nodup →
      ((mailboxEmails (EnforceEmailLimit st addressID) addressID).length ≤
        100) ∧
      (∀ e ∈ mailboxEmails (EnforceEmailLimit st addressID) addressID,
        e ∈ mailboxEmails st addressID) ∧
      (∀ e ∈ mailboxEmails (EnforceEmailLimit st addressID) addressID,
        ∀ d ∈ mailboxEmails st addressID,
          d ∉ mailboxEmails (EnforceEmailLimit st addressID) addressID →
          d.data.receivedAt ≤ e.data.receivedAt) ∧
      ((mailboxEmails st addressID).length ≤ 100 →
        mailboxEmails (EnforceEmailLimit st addressID) addressID =
          mailboxEmails st addressID) ∧
      (100 ≤ (mailboxEmails st addressID).length →
        (mailboxEmails (EnforceEmailLimit st addressID) addressID).length =
          100) := by
  intro st aid hid
  have hperm : (List.insertionSort newerEq (mailboxEmails st aid)).Perm
      (mailboxEmails st aid) := List.perm_insertionSort newerEq _
  have hsorted : List.Sorted newerEq
      (List.insertionSort newerEq (mailboxEmails st aid)) :=
    List.sorted_insertionSort newerEq _
  have hLnd : (mailboxEmails st aid).Nodup :=
    List.Nodup.filter _ (List.Nodup.of_map _ hid)
  have hLid : ((mailboxEmails st aid).map (fun e => e.id)).Nodup :=
    List.Nodup.sublist (List.Sublist.map _ (List.filter_sublist _)) hid
  have hordnd : (List.insertionSort newerEq (mailboxEmails st aid)).Nodup :=
    hperm.nodup_iff.mpr hLnd
  have hordid : ((List.insertionSort newerEq (mailboxEmails st aid)).map
      (fun e => e.id)).Nodup :=
    (hperm.map _).nodup_iff.mpr hLid
  have htake : ∀ e ∈ mailboxEmails (EnforceEmailLimit st aid) aid,
      e ∈ (List.insertionSort newerEq (mailboxEmails st aid)).take 100 := by
    intro e he
    obtain ⟨heL, hni⟩ := (mem_mailboxEmails_enforce st aid e).mp he
    have hord : e ∈ List.insertionSort newerEq (mailboxEmails st aid) :=
      hperm.mem_iff.mpr heL
    rw [← List.take_append_drop 100
      (List.insertionSort newerEq (mailboxEmails st aid))] at hord
    rcases List.mem_append.mp hord with h | h
    · exact h
    · exact (hni (List.mem_map.mpr ⟨e, h, rfl⟩)).elim
  have hdropd : ∀ d ∈ mailboxEmails st aid,
      d ∉ mailboxEmails (EnforceEmailLimit st aid) aid →
      d ∈ (List.insertionSort newerEq (mailboxEmails st aid)).drop 100 := by
    intro d hd hnot
    have hidin : d.id ∈ doomedIds st aid := by
      by_contra hni
      exact hnot ((mem_mailboxEmails_enforce st aid d).mpr ⟨hd, hni⟩)
    obtain ⟨y, hy, hyid⟩ := List.mem_map.mp hidin
    have hyd : y = d :=
      List.inj_on_of_nodup_map hordid (List.mem_of_mem_drop hy)
        (hperm.mem_iff.mpr hd) hyid
    rw [← hyd]
    exact hy
  have hnd' : (mailboxEmails (EnforceEmailLimit st aid) aid).Nodup := by
    rw [mailboxEmails_enforce]
    exact List.Nodup.filter _ hLnd
  refine ⟨?_, ?_, ?_, ?_, ?_⟩
  · have hle := (List.subperm_of_subset hnd'
      (fun {x} hx => htake x hx)).length_le
    refine hle.trans ?_
    rw [List.length_take]
    exact Nat.min_le_left _ _
  · intro e he
    exact ((mem_mailboxEmails_enforce st aid e).mp he).1
  · intro e he d hd hnot
    exact List.Sorted.rel_of_mem_take_of_mem_drop hsorted (htake e he)
      (hdropd d hd hnot)
  · intro hlen
    have hD : doomedIds st aid = [] := by
      unfold doomedIds
      rw [List.drop_eq_nil_of_le (by rw [hperm.length_eq]; exact hlen)]
      rfl
    rw [mailboxEmails_enforce, hD]
    apply List.filter_eq_self.mpr
    intro a _
    rfl
  · intro hge
    have hrev : ∀ x ∈ (List.insertionSort newerEq
        (mailboxEmails st aid)).take 100,
        x ∈ mailboxEmails (EnforceEmailLimit st aid) aid := by
      intro x hx
      have hxo : x ∈ List.insertionSort newerEq (mailboxEmails st aid) :=
        List.mem_of_mem_take hx
      refine (mem_mailboxEmails_enforce st aid x).mpr
        ⟨hperm.mem_iff.mp hxo, ?_⟩
      intro hxid
      obtain ⟨y, hy, hyid⟩ := List.mem_map.mp hxid
      have hyx : y = x :=
        List.inj_on_of_nodup_map hordid (List.mem_of_mem_drop hy) hxo hyid
      rw [hyx] at hy
      have hnd2 := hordnd
      rw [← List.take_append_drop 100
        (List.insertionSort newerEq (mailboxEmails st aid))] at hnd2
      exact (List.nodup_append.mp hnd2).2.2 hx hy
    have hndtake : ((List.insertionSort newerEq
        (mailboxEmails st aid)).take 100).Nodup := by
      have hnd2 := hordnd
      rw [← List.take_append_drop 100
        (List.insertionSort newerEq (mailboxEmails st aid))] at hnd2
      exact (List.nodup_append.mp hnd2).1
    have hp : (mailboxEmails (EnforceEmailLimit st aid) aid).Perm
        ((List.insertionSort newerEq (mailboxEmails st aid)).take 100) :=
      (List.subperm_of_subset hnd' (fun {x} hx => htake x hx)).antisymm
        (List.subperm_of_subset hndtake (fun {x} hx => hrev x hx))
    rw [hp.length_eq, List.length_take, hperm.length_eq]
    exact Nat.min_eq_left hge

/-- C6 witness: `c6_enforce_limit` at a concrete two-email store. -/
theorem c6_enforce_limit_witness :
    (mailboxEmails (EnforceEmailLimit
      ⟨[⟨7, "a@b"⟩],
        [⟨1, ⟨"", "", "", "", "", "", "", [], 0, none, "", "", false, 3⟩⟩,
          ⟨2, ⟨"", "", "", "", "", "", "", [], 0, none, "", "", false, 5⟩⟩],
        [⟨1, 7⟩, ⟨2, 7⟩], [], 3⟩ 7) 7).length ≤ 100 :=
  (c6_enforce_limit
    ⟨[⟨7, "a@b"⟩],
      [⟨1, ⟨"", "", "", "", "", "", "", [], 0, none, "", "", false, 3⟩⟩,
        ⟨2, ⟨"", "", "", "", "", "", "", [], 0, none, "", "", false, 5⟩⟩],
      [⟨1, 7⟩, ⟨2, 7⟩], [], 3⟩ 7 (by decide)).1

end TempmailMX
